import Mathlib

set_option autoImplicit false

/-!
Shallow embedding of the `BatchPinger` engine of `src/batch_ping.go`
(repository xiemx/batch_ping, package `ping`), together with theorems
settling the frozen claims about it.

External collaborators (the ICMP parser `icmp.ParseMessage`, the socket
primitives, `os.Getpid`) enter the model as oracle inputs.  Members of the
repository's `ping.go` (the `Pinger` struct internals, `NewPinger`,
`Pinger.Statistics`, `bytesToTime`, the payload-layout constants) are not
under `src/`; every definition standing in for one of them carries a doc
comment starting `Modelled from the spec:`.
-/

namespace BatchPing

/-- Time instants and durations are integer nanoseconds, mirroring Go's
`time.Time` / `time.Duration` at nanosecond resolution. -/
abbrev TimeNS := Int

/-- Modelled from the spec: the constant `timeSliceLength` (width in bytes of
the send-timestamp prefix of an echo payload) is defined in the repository's
`ping.go`, which is not under `src/`; the spec fixes the payload layout to a
fixed-width timestamp followed by a fixed tracker marker (8 bytes each). -/
def timeSliceLength : Nat := 8

/-- Modelled from the spec: the constant `trackerLength` (width in bytes of
the session/tracker marker) is defined in the repository's `ping.go`, not
under `src/`. -/
def trackerLength : Nat := 8

/-- Modelled from the spec: the `Pinger` struct itself is declared in the
repository's `ping.go`, not under `src/`.  `src/batch_ping.go` reads and
writes the fields used here: `addr` (the input address string), the session
id and assigned sequence id, the `PacketsSent` / `PacketsRecv` counters and
the `rtts` sample list. -/
structure Pinger where
  addr : String
  id : Nat
  seqID : Nat
  PacketsSent : Nat
  PacketsRecv : Nat
  rtts : List TimeNS
deriving DecidableEq

/-- Modelled from the spec: `NewPinger`, defined in the repository's
`ping.go`, creates one Target per input address, carrying the address, the
session id and the assigned sequence id, with zeroed counters. -/
def NewPinger (addr : String) (pid : Nat) (seqID : Nat) : Pinger :=
  { addr := addr, id := pid, seqID := seqID,
    PacketsSent := 0, PacketsRecv := 0, rtts := [] }

/-- Modelled from the spec: `bytesToTime`, defined in the repository's
`ping.go`, decodes the leading `timeSliceLength` bytes of a payload as a
big-endian nanosecond timestamp. -/
def bytesToTime (b : List Nat) : TimeNS :=
  ((b.take timeSliceLength).foldl (fun acc x => acc * 256 + x % 256) 0 : Nat)

/-- The type of a decoded ICMP message, as far as `processPacket`
distinguishes it: `ipv4.ICMPTypeEchoReply`, `ipv6.ICMPTypeEchoReply`, or
anything else. -/
inductive MsgType where
  | echoReply4
  | echoReply6
  | otherType
deriving DecidableEq

/-- The body of a decoded ICMP message: an `*icmp.Echo` body with identifier,
sequence and data bytes, or any other body type. -/
inductive MsgBody where
  | echo (id : Nat) (seq : Nat) (data : List Nat)
  | otherBody
deriving DecidableEq

/-- A decoded ICMP message, the output of the external parser
`icmp.ParseMessage`. -/
structure Message where
  type : MsgType
  body : MsgBody
deriving DecidableEq

/-- The `BatchPinger` struct of `src/batch_ping.go`.  The socket handles
`conn4` / `conn6` are external resources (modelled separately in `runSockets`)
and the `done` channel is modelled by the boolean gate `doneClosed`. -/
structure BatchPinger where
  doneClosed : Bool
  mapSeqPinger : List (Nat × Pinger)
  interval : TimeNS
  timeout : TimeNS
  count : Nat
  sendCount : Nat
  source : String
  network : String
  id : Nat
  addrs : List String
  debug : Bool
deriving DecidableEq

/-- `NewBatchPinger` of `src/batch_ping.go`.  The process id produced by the
external `os.Getpid` (wrapped by `getPId`) is passed in as `pid`.  Returns an
error exactly when more than 0xffff addresses are supplied; otherwise the
engine with its documented defaults (interval 1s, timeout 100000s, count 5). -/
def NewBatchPinger (pid : Nat) (addrs : List String) (privileged : Bool) :
    Except String BatchPinger :=
  if addrs.length > 0xffff then
    Except.error "addr can not more than 65535"
  else
    Except.ok
      { doneClosed := false
        mapSeqPinger := []
        interval := 1000000000
        timeout := 100000 * 1000000000
        count := 5
        sendCount := 0
        source := ""
        network := if privileged then "ip" else "udp"
        id := pid
        addrs := addrs
        debug := false }

/-- The sequence-assignment loop of `Run` (`src/batch_ping.go` lines
136-145): `seqID` is incremented before each `NewPinger` call and the new
pinger is stored in the map at key `seqID`.  `Run` enters with `seqID = 0`. -/
def buildPingers (pid : Nat) : List String → Nat → List (Nat × Pinger)
  | [], _ => []
  | addr :: rest, seqID =>
    (seqID + 1, NewPinger addr pid (seqID + 1)) :: buildPingers pid rest (seqID + 1)

/-- Map the value stored at key `s` of the seq→pinger map through `f`
(the Go map holds at most one entry per key; the model updates every entry
whose key is `s`). -/
def updateSeq (m : List (Nat × Pinger)) (s : Nat) (f : Pinger → Pinger) :
    List (Nat × Pinger) :=
  m.map fun kv => if kv.1 = s then (kv.1, f kv.2) else kv

/-- `processPacket` of `src/batch_ping.go` (lines 271-324).  The external
parser `icmp.ParseMessage` applied to the received bytes is an oracle input
`parsed`; `receivedAt` is the `time.Now()` taken at entry.  The returned pair
is (the Go error, the updated engine state): a parse failure or an
`*icmp.Echo` body shorter than `timeSliceLength + trackerLength` or a
non-echo body under an echo-reply type yields an error; a non-echo-reply
type, a foreign identifier or an unknown sequence is dropped silently; a
matching reply increments `PacketsRecv` of the pinger registered at the
reply's sequence and appends the RTT sample. -/
def processPacket (bp : BatchPinger) (parsed : Except String Message)
    (receivedAt : TimeNS) : Option String × BatchPinger :=
  match parsed with
  | Except.error e => (some ("error parsing icmp message: " ++ e), bp)
  | Except.ok m =>
    if m.type ≠ MsgType.echoReply4 ∧ m.type ≠ MsgType.echoReply6 then
      (none, bp)
    else
      match m.body with
      | MsgBody.echo pktId pktSeq pktData =>
        if pktId ≠ bp.id then
          (none, bp)
        else if pktData.length < timeSliceLength + trackerLength then
          (some "insufficient data received", bp)
        else
          match bp.mapSeqPinger.lookup pktSeq with
          | some _ =>
            (none,
              { bp with
                  mapSeqPinger := updateSeq bp.mapSeqPinger pktSeq fun p =>
                    { p with
                        PacketsRecv := p.PacketsRecv + 1
                        rtts := p.rtts ++ [receivedAt - bytesToTime pktData] } })
          | none => (none, bp)
      | MsgBody.otherBody => (some "invalid ICMP echo reply", bp)

/-- `batchSendICMP` of `src/batch_ping.go` (lines 264-269): every pinger
sends one echo request (the socket write inside `Pinger.SendICMP` is
external) and its `PacketsSent` counter is incremented. -/
def batchSendICMP (bp : BatchPinger) : BatchPinger :=
  { bp with
      mapSeqPinger := bp.mapSeqPinger.map fun kv =>
        (kv.1, { kv.2 with PacketsSent := kv.2.PacketsSent + 1 }) }

/-- Outcome of one deadline-bounded socket read, as the receive loops
classify it: a successful read, a `*net.OpError` whose `Timeout()` is true,
a `*net.OpError` that is not a timeout, or an error of any other dynamic
type (for which the loops' type assertion fails). -/
inductive ReadOutcome where
  | okRead
  | opTimeout
  | opErrorNonTimeout
  | otherError
deriving DecidableEq

/-- What one receive-loop iteration does after its read returns: `exitLoop`
is the Go `return` ending the goroutine, `skip` is `continue` (next iteration
without processing), `process` falls through to `processPacket` and then
iterates. -/
inductive LoopAction where
  | exitLoop
  | skip
  | process
deriving DecidableEq

/-- One iteration of `recvIpv4` (`src/batch_ping.go` lines 163-199) after
its read returns: timeout → `continue`; non-timeout `*net.OpError` → log and
`return`; an error of any other type falls through to `processPacket`, as
does a successful read. -/
def recvIpv4Step : ReadOutcome → LoopAction
  | ReadOutcome.okRead => LoopAction.process
  | ReadOutcome.opTimeout => LoopAction.skip
  | ReadOutcome.opErrorNonTimeout => LoopAction.exitLoop
  | ReadOutcome.otherError => LoopAction.process

/-- One iteration of `recvIpv6` (`src/batch_ping.go` lines 201-231) after
its read returns: timeout → `continue`; every other outcome, error or not,
falls through to `processPacket` — the IPv6 loop has no `return` branch for
non-timeout errors. -/
def recvIpv6Step : ReadOutcome → LoopAction
  | ReadOutcome.okRead => LoopAction.process
  | ReadOutcome.opTimeout => LoopAction.skip
  | ReadOutcome.opErrorNonTimeout => LoopAction.process
  | ReadOutcome.otherError => LoopAction.process

/-- Which ready channel the `select` of `sendICMP` fires on in one loop
iteration: the overall-timeout ticker or the interval ticker (the
`<-bp.done` case is modelled inside `sendICMPStep`, since `done` is only
ever closed by this very loop). -/
inductive SendEvent where
  | timeoutFires
  | intervalTick
deriving DecidableEq

/-- Observable state of the `sendICMP` loop (`src/batch_ping.go` lines
233-261): the `sendCount` field, whether `close(bp.done)` has been executed
(`doneClosed`), whether the loop has returned (`exited`), and how many times
the `close` operation has been executed in total (`closeOps`). -/
structure SendLoopState where
  sendCount : Nat
  doneClosed : Bool
  exited : Bool
  closeOps : Nat
deriving DecidableEq

/-- The state in which `sendICMP` starts: nothing sent, gate open. -/
def sendLoopInit : SendLoopState :=
  { sendCount := 0, doneClosed := false, exited := false, closeOps := 0 }

/-- One iteration of `sendICMP`'s `select` loop with configured packet count
`count`.  A returned loop ignores further events.  If the gate is already
closed the `<-bp.done` case fires and the loop returns.  On the timeout
ticker the loop closes the gate and returns.  On an interval tick it runs
`batchSendICMP`, increments `sendCount`, and if `sendCount ≥ count` it
sleeps one interval, closes the gate and returns. -/
def sendICMPStep (count : Nat) (s : SendLoopState) (e : SendEvent) :
    SendLoopState :=
  if s.exited then s
  else if s.doneClosed then { s with exited := true }
  else
    match e with
    | SendEvent.timeoutFires =>
      { s with doneClosed := true, exited := true, closeOps := s.closeOps + 1 }
    | SendEvent.intervalTick =>
      if s.sendCount + 1 ≥ count then
        { sendCount := s.sendCount + 1, doneClosed := true, exited := true,
          closeOps := s.closeOps + 1 }
      else
        { s with sendCount := s.sendCount + 1 }

/-- The `sendICMP` loop run over a sequence of fired events. -/
def sendICMPRun (count : Nat) (es : List SendEvent) : SendLoopState :=
  es.foldl (sendICMPStep count) sendLoopInit

/-- Oracle for the external effects `Run` depends on: whether
`icmp.ListenPacket` succeeds for each family and whether `NewPinger`
succeeds for a given address. -/
structure RunEnv where
  listen4ok : Bool
  listen6ok : Bool
  pingerOk : String → Bool

/-- Socket bookkeeping of one `Run` call: which sockets were successfully
opened, which were closed before `Run` returned, and whether `Run` returned
an error. -/
structure RunExit where
  opened4 : Bool
  opened6 : Bool
  closed4 : Bool
  closed6 : Bool
  runErr : Bool
deriving DecidableEq

/-- The open/close/error behaviour of `Run` (`src/batch_ping.go` lines
126-161).  `Run` opens `conn4`, returning on failure; opens `conn6`,
returning on failure; builds one pinger per address, returning on the first
failure; only then registers `defer bp.conn4.Close()` and
`defer bp.conn6.Close()`, runs the three loops to completion and returns
`nil`, at which point the deferred closes run. -/
def runSockets (env : RunEnv) (addrs : List String) : RunExit :=
  if env.listen4ok then
    if env.listen6ok then
      if addrs.all env.pingerOk then
        { opened4 := true, opened6 := true, closed4 := true, closed6 := true,
          runErr := false }
      else
        { opened4 := true, opened6 := true, closed4 := false, closed6 := false,
          runErr := true }
    else
      { opened4 := true, opened6 := false, closed4 := false, closed6 := false,
        runErr := true }
  else
    { opened4 := false, opened6 := false, closed4 := false, closed6 := false,
      runErr := true }

/-- Modelled from the spec: the `Statistics` struct returned by
`Pinger.Statistics` is declared in the repository's `ping.go`, not under
`src/`.  Per the spec it carries packets sent, packets received, the loss
fraction and the RTT samples; the min/avg/max/stddev aggregates are omitted
here since no claim mentions them. -/
structure Statistics where
  PacketsSent : Nat
  PacketsRecv : Nat
  PacketLoss : ℚ
  Rtts : List TimeNS
deriving DecidableEq

/-- Modelled from the spec: `Pinger.Statistics` is defined in the
repository's `ping.go`, not under `src/`.  Per the spec, the loss fraction
is (sent − received)/sent and 0 when sent = 0. -/
def pingerStatistics (p : Pinger) : Statistics :=
  { PacketsSent := p.PacketsSent
    PacketsRecv := p.PacketsRecv
    PacketLoss :=
      if p.PacketsSent = 0 then 0
      else ((p.PacketsSent : ℚ) - (p.PacketsRecv : ℚ)) / (p.PacketsSent : ℚ)
    Rtts := p.rtts }

/-- Insert-or-overwrite at a string key, the effect of `stMap[addr] = x` on
a Go map modelled as an association list. -/
def mapInsert (m : List (String × Statistics)) (k : String) (v : Statistics) :
    List (String × Statistics) :=
  if m.any (fun kv => kv.1 = k) then
    m.map fun kv => if kv.1 = k then (k, v) else kv
  else m ++ [(k, v)]

/-- `BatchPinger.Statistics` (`src/batch_ping.go` lines 327-334): iterate
the seq→pinger map (iteration order is the list order of the model) and
write each pinger's statistics into a map keyed by its address; a later
entry with the same address overwrites the earlier one. -/
def statisticsMap (bp : BatchPinger) : List (String × Statistics) :=
  bp.mapSeqPinger.foldl
    (fun st kv => mapInsert st kv.2.addr (pingerStatistics kv.2)) []

/-- An event of a run as seen by one `BatchPinger` state: a send round
(`batchSendICMP` plus the `sendCount` increment) or the processing of one
received packet, with the parse outcome and receive time as oracle inputs. -/
inductive RunEvent where
  | round
  | recv (parsed : Except String Message) (receivedAt : TimeNS)

/-- Effect of one run event on the engine state. -/
def stepEvent (bp : BatchPinger) : RunEvent → BatchPinger
  | RunEvent.round => batchSendICMP bp
  | RunEvent.recv parsed t => (processPacket bp parsed t).2

/-- The engine state after a sequence of run events. -/
def runTrace (bp : BatchPinger) (es : List RunEvent) : BatchPinger :=
  es.foldl stepEvent bp

/-- Whether a run event is a send round. -/
def isRound : RunEvent → Bool
  | RunEvent.round => true
  | RunEvent.recv _ _ => false

/-- Whether a run event is the processing of a valid matching reply for
sequence `s` under session id `pid`: a successfully parsed echo-reply whose
body is an `*icmp.Echo` with identifier `pid`, sequence `s` and a payload of
at least `timeSliceLength + trackerLength` bytes.  These are exactly the
events on which `processPacket` increments a `PacketsRecv` counter (provided
`s` is a key of the map). -/
def countedFor (pid : Nat) (s : Nat) : RunEvent → Bool
  | RunEvent.round => false
  | RunEvent.recv parsed _ =>
    match parsed with
    | Except.error _ => false
    | Except.ok m =>
      match m.body with
      | MsgBody.echo pktId pktSeq pktData =>
        decide (m.type = MsgType.echoReply4 ∨ m.type = MsgType.echoReply6)
          && decide (pktId = pid)
          && decide (timeSliceLength + trackerLength ≤ pktData.length)
          && decide (pktSeq = s)
      | MsgBody.otherBody => false

/-- The `lookup s` view of a pinger's `PacketsSent` counter. -/
def sentAt (bp : BatchPinger) (s : Nat) : Option Nat :=
  (List.lookup s bp.mapSeqPinger).map Pinger.PacketsSent

/-- The `lookup s` view of a pinger's `PacketsRecv` counter. -/
def recvAt (bp : BatchPinger) (s : Nat) : Option Nat :=
  (List.lookup s bp.mapSeqPinger).map Pinger.PacketsRecv

/-- A sample engine state: session id 7, one pinger registered at sequence 1. -/
def sampleBP : BatchPinger :=
  { doneClosed := false
    mapSeqPinger := [(1, NewPinger "192.0.2.1" 7 1)]
    interval := 1000000000
    timeout := 100000 * 1000000000
    count := 5
    sendCount := 0
    source := ""
    network := "ip"
    id := 7
    addrs := ["192.0.2.1"]
    debug := false }

/-- A sample engine state whose two pingers share one address. -/
def sampleDupBP : BatchPinger :=
  { sampleBP with
      mapSeqPinger := [(1, NewPinger "192.0.2.9" 7 1), (2, NewPinger "192.0.2.9" 7 2)]
      addrs := ["192.0.2.9", "192.0.2.9"] }

/-- A decoded echo reply carrying a foreign identifier. -/
def foreignIdMsg : Message :=
  { type := MsgType.echoReply4, body := MsgBody.echo 99 1 (List.replicate 16 0) }

/-- A decoded echo reply with matching identifier, an unknown sequence and an
empty payload. -/
def shortUnknownSeqMsg : Message :=
  { type := MsgType.echoReply4, body := MsgBody.echo 7 9 [] }

/-- A decoded echo reply matching the sample pinger at sequence 1. -/
def matchingReplyMsg : Message :=
  { type := MsgType.echoReply4, body := MsgBody.echo 7 1 (List.replicate 16 0) }

/-- A finished pinger with 4 packets sent and 3 received. -/
def sampleFinishedPinger : Pinger :=
  { addr := "198.51.100.1", id := 7, seqID := 2,
    PacketsSent := 4, PacketsRecv := 3, rtts := [5, 6, 7] }

/-- Claim C1, counterexample: when the IPv4 socket opens and the IPv6 socket
fails to open, `Run` returns with the successfully opened IPv4 socket left
unclosed — the `defer Close` calls are registered only after both opens and
the Target-building loop, so the early-return paths skip them. -/
theorem run_close_not_on_early_exit_cex :
    (runSockets { listen4ok := true, listen6ok := false, pingerOk := fun _ => true } []).opened4
      = true
    ∧ (runSockets { listen4ok := true, listen6ok := false, pingerOk := fun _ => true } []).closed4
      = false :=
  ⟨rfl, rfl⟩

/-- Claim C1, amended: `Run` closes the sockets exactly on the path that
survives both socket opens and the whole Target-building loop (on which it
returns `nil`); on an IPv4-open failure nothing was opened, but on an
IPv6-open failure the opened IPv4 socket is not closed, and on a
Target-build failure neither opened socket is closed. -/
theorem run_socket_close_characterization (env : RunEnv) (addrs : List String) :
    (runSockets env addrs).opened4 = env.listen4ok
    ∧ (runSockets env addrs).opened6 = (env.listen4ok && env.listen6ok)
    ∧ (runSockets env addrs).runErr
        = !(env.listen4ok && env.listen6ok && addrs.all env.pingerOk)
    ∧ (runSockets env addrs).closed4
        = (env.listen4ok && env.listen6ok && addrs.all env.pingerOk)
    ∧ (runSockets env addrs).closed6
        = (env.listen4ok && env.listen6ok && addrs.all env.pingerOk) := by
  cases h4 : env.listen4ok <;> cases h6 : env.listen6ok <;>
    cases ha : addrs.all env.pingerOk <;> simp [runSockets, h4, h6, ha]

/-- Claim C2, counterexample: a non-timeout read error does not make the
IPv6 receive loop exit — the loop falls through to packet processing and
iterates again. -/
theorem recvIpv6_error_exit_cex :
    recvIpv6Step ReadOutcome.opErrorNonTimeout ≠ LoopAction.exitLoop := by
  decide

/-- Claim C2, amended: a read timeout makes both receive loops continue; a
non-timeout `*net.OpError` makes the IPv4 loop exit, but the IPv6 loop never
exits on a read error — it falls through to packet processing and continues,
as both loops also do on a read error that is not a `*net.OpError`. -/
theorem recv_read_error_policy :
    recvIpv4Step ReadOutcome.opErrorNonTimeout = LoopAction.exitLoop
    ∧ recvIpv4Step ReadOutcome.opTimeout = LoopAction.skip
    ∧ recvIpv6Step ReadOutcome.opTimeout = LoopAction.skip
    ∧ recvIpv6Step ReadOutcome.opErrorNonTimeout = LoopAction.process
    ∧ recvIpv4Step ReadOutcome.otherError = LoopAction.process
    ∧ recvIpv6Step ReadOutcome.otherError = LoopAction.process := by
  decide

/-- Claim C9: `NewBatchPinger` returns an error exactly when more than 65535
addresses are supplied, and an engine exactly when at most 65535 are. -/
theorem newBatchPinger_error_iff (pid : Nat) (addrs : List String) (priv : Bool) :
    ((∃ e, NewBatchPinger pid addrs priv = Except.error e) ↔ 65535 < addrs.length)
    ∧ ((∃ bp, NewBatchPinger pid addrs priv = Except.ok bp) ↔ addrs.length ≤ 65535) := by
  unfold NewBatchPinger
  by_cases h : addrs.length > 0xffff <;> (simp [h]; try omega)

/-- Claim C4: `processPacket` applied to a decoded echo reply whose
identifier differs from the run's session id returns no error and leaves the
whole engine state — in particular every pinger's `PacketsRecv` counter and
`rtts` samples — unchanged. -/
theorem processPacket_foreign_id_unchanged (bp : BatchPinger) (msg : Message)
    (pktId pktSeq : Nat) (pktData : List Nat) (t : TimeNS)
    (hty : msg.type = MsgType.echoReply4 ∨ msg.type = MsgType.echoReply6)
    (hbody : msg.body = MsgBody.echo pktId pktSeq pktData)
    (hid : pktId ≠ bp.id) :
    processPacket bp (Except.ok msg) t = (none, bp) := by
  unfold processPacket
  rcases hty with h | h <;> simp [h, hbody, hid]

/-- Claim C4, witness at a concrete input: the sample engine has session id
7; a decoded reply with identifier 99 for its registered sequence 1 leaves
it untouched. -/
theorem processPacket_foreign_id_unchanged_witness :
    processPacket sampleBP (Except.ok foreignIdMsg) 0 = (none, sampleBP) :=
  processPacket_foreign_id_unchanged sampleBP foreignIdMsg 99 1
    (List.replicate 16 0) 0 (Or.inl rfl) rfl (by decide)

/-- Claim C5, counterexample: a decoded echo reply whose sequence 9 is not a
key of the sample engine's map, but whose identifier matches and whose
payload is shorter than `timeSliceLength + trackerLength`, makes
`processPacket` return an "insufficient data" error — not the claimed
error-free drop. -/
theorem processPacket_unknown_seq_error_cex :
    List.lookup 9 sampleBP.mapSeqPinger = none
    ∧ (processPacket sampleBP (Except.ok shortUnknownSeqMsg) 0).1.isSome = true := by
  decide

/-- Claim C5, amended: `processPacket` applied to a decoded echo-reply body
whose sequence is not a key of the map always leaves the engine state — in
particular every pinger's `sent`, `received` and `rtts` — unchanged, and it
returns an error exactly when the message is an echo reply whose identifier
matches the run's id and whose payload is shorter than the
`timeSliceLength + trackerLength` prefix (the length check precedes the
sequence lookup); in every other case it returns no error. -/
theorem processPacket_unknown_seq_unchanged (bp : BatchPinger) (msg : Message)
    (pktId pktSeq : Nat) (pktData : List Nat) (t : TimeNS)
    (hbody : msg.body = MsgBody.echo pktId pktSeq pktData)
    (hseq : List.lookup pktSeq bp.mapSeqPinger = none) :
    (processPacket bp (Except.ok msg) t).2 = bp
    ∧ ((processPacket bp (Except.ok msg) t).1 ≠ none ↔
        ((msg.type = MsgType.echoReply4 ∨ msg.type = MsgType.echoReply6)
          ∧ pktId = bp.id ∧ pktData.length < timeSliceLength + trackerLength)) := by
  unfold processPacket
  by_cases h4 : msg.type = MsgType.echoReply4 <;>
    by_cases h6 : msg.type = MsgType.echoReply6 <;>
      by_cases hid : pktId = bp.id <;>
        by_cases hlen : pktData.length < timeSliceLength + trackerLength <;>
          simp [h4, h6, hid, hlen, hbody, hseq]

/-- Claim C5, amended, witness at a concrete input: for the sample engine
(id 7) and an empty-payload reply with matching id and unknown sequence 9,
the state is unchanged and the error condition holds. -/
theorem processPacket_unknown_seq_unchanged_witness :
    (processPacket sampleBP (Except.ok shortUnknownSeqMsg) 0).2 = sampleBP
    ∧ ((processPacket sampleBP (Except.ok shortUnknownSeqMsg) 0).1 ≠ none ↔
        ((shortUnknownSeqMsg.type = MsgType.echoReply4
            ∨ shortUnknownSeqMsg.type = MsgType.echoReply6)
          ∧ 7 = sampleBP.id
          ∧ (List.length ([] : List Nat) < timeSliceLength + trackerLength))) :=
  processPacket_unknown_seq_unchanged sampleBP shortUnknownSeqMsg 7 9 [] 0 rfl
    (by decide)

/-- Entry `i` of the pinger list built from counter value `k`: the `i`-th
address gets sequence id `k + i + 1`. -/
theorem buildPingers_getElem (pid : Nat) (addrs : List String) (k i : Nat) :
    (buildPingers pid addrs k)[i]?
      = (addrs[i]?).map fun a => (k + i + 1, NewPinger a pid (k + i + 1)) := by
  induction addrs generalizing k i with
  | nil => simp [buildPingers]
  | cons a rest ih =>
    cases i with
    | zero => simp [buildPingers]
    | succ j =>
      simp only [buildPingers, List.getElem?_cons_succ]
      rw [ih (k + 1) j, show k + 1 + j + 1 = k + (j + 1) + 1 from by omega]

/-- The keys of the pinger list built from counter value `k` are the
consecutive integers `k+1, k+2, …`. -/
theorem buildPingers_keys (pid : Nat) (addrs : List String) (k : Nat) :
    (buildPingers pid addrs k).map Prod.fst
      = List.range' (k + 1) addrs.length := by
  induction addrs generalizing k with
  | nil => simp [buildPingers]
  | cons a rest ih =>
    simp [buildPingers, List.range'_succ, ih (k + 1)]

/-- Claim C7: `Run`'s sequence-assignment loop gives the `i`-th input
address (0-based) the sequence id `i + 1` and its own freshly built pinger,
and the resulting sequence ids are pairwise distinct. -/
theorem run_seq_assignment (pid i : Nat) (addrs : List String) (a : String)
    (ha : addrs[i]? = some a) :
    (buildPingers pid addrs 0)[i]? = some (i + 1, NewPinger a pid (i + 1))
    ∧ ((buildPingers pid addrs 0).map Prod.fst).Nodup := by
  constructor
  · rw [buildPingers_getElem, ha]
    simp
  · rw [buildPingers_keys]
    exact List.nodup_range' 1 addrs.length

/-- Claim C7, witness at a concrete input: with two addresses, the second
(index 1) gets sequence id 2 and the key list is duplicate-free. -/
theorem run_seq_assignment_witness :
    (buildPingers 7 ["192.0.2.1", "192.0.2.2"] 0)[1]?
      = some (2, NewPinger "192.0.2.2" 7 2)
    ∧ ((buildPingers 7 ["192.0.2.1", "192.0.2.2"] 0).map Prod.fst).Nodup :=
  run_seq_assignment 7 1 ["192.0.2.1", "192.0.2.2"] "192.0.2.2" rfl

/-- Invariant of the `sendICMP` loop: the gate is closed exactly when the
loop has returned, and the `close` operation has run exactly once when the
gate is closed and never otherwise. -/
def SendInv (s : SendLoopState) : Prop :=
  s.doneClosed = s.exited ∧ s.closeOps = (if s.doneClosed then 1 else 0)

theorem sendICMPStep_inv (count : Nat) (s : SendLoopState) (e : SendEvent)
    (h : SendInv s) : SendInv (sendICMPStep count s e) := by
  obtain ⟨h1, h2⟩ := h
  unfold sendICMPStep SendInv
  by_cases hex : s.exited
  · simp [hex, h1, h2, ← h1]
  · have hd : s.doneClosed = false := by
      cases hdc : s.doneClosed
      · rfl
      · rw [hdc] at h1; exact absurd h1.symm (by simpa using hex)
    cases e with
    | timeoutFires => simp [hex, hd, h2]
    | intervalTick =>
      by_cases hc : s.sendCount + 1 ≥ count <;> simp [hex, hd, hc, h1, h2]

theorem sendICMPFold_inv (count : Nat) (es : List SendEvent)
    (s : SendLoopState) (h : SendInv s) :
    SendInv (es.foldl (sendICMPStep count) s) := by
  induction es generalizing s with
  | nil => exact h
  | cons e rest ih => exact ih _ (sendICMPStep_inv count s e h)

theorem sendICMPRun_inv (count : Nat) (es : List SendEvent) :
    SendInv (sendICMPRun count es) :=
  sendICMPFold_inv count es sendLoopInit ⟨rfl, rfl⟩

/-- A closed gate stays closed through any further iteration. -/
theorem sendICMPStep_done_mono (count : Nat) (s : SendLoopState) (e : SendEvent)
    (h : s.doneClosed = true) : (sendICMPStep count s e).doneClosed = true := by
  unfold sendICMPStep
  by_cases hex : s.exited <;> simp [hex, h]

theorem sendICMPFold_done_mono (count : Nat) (es : List SendEvent)
    (s : SendLoopState) (h : s.doneClosed = true) :
    (es.foldl (sendICMPStep count) s).doneClosed = true := by
  induction es generalizing s with
  | nil => exact h
  | cons e rest ih => exact ih _ (sendICMPStep_done_mono count s e h)

/-- Once the overall-timeout ticker fires, the gate is closed from that
iteration on. -/
theorem sendICMPFold_timeout_closes (count : Nat) (es : List SendEvent)
    (s : SendLoopState) (hinv : SendInv s)
    (hmem : SendEvent.timeoutFires ∈ es) :
    (es.foldl (sendICMPStep count) s).doneClosed = true := by
  induction es generalizing s with
  | nil => cases hmem
  | cons e rest ih =>
    rcases List.mem_cons.mp hmem with he | he
    · subst he
      rw [List.foldl_cons]
      apply sendICMPFold_done_mono
      obtain ⟨h1, h2⟩ := hinv
      by_cases hex : s.exited
      · simp [sendICMPStep, hex, h1]
      · have hd : s.doneClosed = false := by
          cases hdc : s.doneClosed
          · rfl
          · rw [hdc] at h1; exact absurd h1.symm (by simpa using hex)
        simp [sendICMPStep, hex, hd]
    · exact ih (sendICMPStep count s e) (sendICMPStep_inv count s e hinv) he

/-- Claim C3: over any sequence of ticker events, the `sendICMP` loop
executes `close(bp.done)` at most once; the gate is closed exactly when the
close has run once, the loop returns exactly when it has closed the gate,
the gate never reopens under further events (with the close still executed
exactly once), and once the timeout path fires the gate is closed — so the
count-exhaustion and timeout paths never double-close. -/
theorem sendICMP_gate_closes_once (count : Nat) (es extra : List SendEvent) :
    (sendICMPRun count es).closeOps ≤ 1
    ∧ ((sendICMPRun count es).doneClosed = true
        ↔ (sendICMPRun count es).closeOps = 1)
    ∧ ((sendICMPRun count es).exited = true
        ↔ (sendICMPRun count es).closeOps = 1)
    ∧ ((sendICMPRun count es).doneClosed = true →
        (sendICMPRun count (es ++ extra)).doneClosed = true
        ∧ (sendICMPRun count (es ++ extra)).closeOps = 1)
    ∧ (SendEvent.timeoutFires ∈ es → (sendICMPRun count es).closeOps = 1) := by
  obtain ⟨h1, h2⟩ := sendICMPRun_inv count es
  refine ⟨?_, ?_, ?_, ?_, ?_⟩
  · rw [h2]; split <;> omega
  · rw [h2]; cases hdc : (sendICMPRun count es).doneClosed <;> simp [hdc]
  · rw [h2, ← h1]
    cases hdc : (sendICMPRun count es).doneClosed <;> simp [hdc]
  · intro hdone
    have hmono : (sendICMPRun count (es ++ extra)).doneClosed = true := by
      unfold sendICMPRun at hdone ⊢
      rw [List.foldl_append]
      exact sendICMPFold_done_mono count extra _ hdone
    obtain ⟨g1, g2⟩ := sendICMPRun_inv count (es ++ extra)
    exact ⟨hmono, by rw [g2, hmono]; rfl⟩
  · intro hmem
    have hclosed : (sendICMPRun count es).doneClosed = true :=
      sendICMPFold_timeout_closes count es sendLoopInit ⟨rfl, rfl⟩ hmem
    rw [h2, hclosed]; rfl

/-- Claim C3, witness at a concrete input: with count 1, a single interval
tick closes the gate once, and a timeout firing afterwards does not close it
again. -/
theorem sendICMP_gate_closes_once_witness :
    (sendICMPRun 1 [SendEvent.intervalTick]).closeOps ≤ 1
    ∧ (sendICMPRun 1 ([SendEvent.intervalTick] ++ [SendEvent.timeoutFires])).doneClosed
        = true
    ∧ (sendICMPRun 1 ([SendEvent.intervalTick] ++ [SendEvent.timeoutFires])).closeOps
        = 1 :=
  ⟨(sendICMP_gate_closes_once 1 [SendEvent.intervalTick] [SendEvent.timeoutFires]).1,
    ((sendICMP_gate_closes_once 1 [SendEvent.intervalTick]
        [SendEvent.timeoutFires]).2.2.2.1 (by decide)).1,
    ((sendICMP_gate_closes_once 1 [SendEvent.intervalTick]
        [SendEvent.timeoutFires]).2.2.2.1 (by decide)).2⟩

/-- Claim C8: for a finished pinger (whose counters satisfy the run's
`received ≤ sent` discipline), the reported loss fraction equals
(sent − received)/sent, lies in [0, 1], and is 0 when sent = 0. -/
theorem pingerStatistics_loss_bounds (p : Pinger)
    (h : p.PacketsRecv ≤ p.PacketsSent) :
    (pingerStatistics p).PacketLoss
        = ((p.PacketsSent : ℚ) - (p.PacketsRecv : ℚ)) / (p.PacketsSent : ℚ)
    ∧ 0 ≤ (pingerStatistics p).PacketLoss
    ∧ (pingerStatistics p).PacketLoss ≤ 1
    ∧ (p.PacketsSent = 0 → (pingerStatistics p).PacketLoss = 0) := by
  unfold pingerStatistics
  by_cases hs : p.PacketsSent = 0
  · have hr : p.PacketsRecv = 0 := by omega
    simp [hs, hr]
  · have hpos : (0 : ℚ) < (p.PacketsSent : ℚ) := by
      exact_mod_cast Nat.pos_of_ne_zero hs
    have hnum : (0 : ℚ) ≤ (p.PacketsSent : ℚ) - (p.PacketsRecv : ℚ) := by
      rw [sub_nonneg]
      exact_mod_cast h
    refine ⟨by simp [hs], ?_, ?_, fun h0 => absurd h0 hs⟩
    · simp only [hs, if_false]
      exact div_nonneg hnum (le_of_lt hpos)
    · simp only [hs, if_false]
      rw [div_le_one hpos]
      have : (0 : ℚ) ≤ (p.PacketsRecv : ℚ) := by positivity
      linarith

/-- Claim C8, witness at a concrete input: a pinger with 4 sent and 3
received reports loss (4 − 3)/4, which is within [0, 1]. -/
theorem pingerStatistics_loss_bounds_witness :
    (pingerStatistics sampleFinishedPinger).PacketLoss
        = ((sampleFinishedPinger.PacketsSent : ℚ)
            - (sampleFinishedPinger.PacketsRecv : ℚ))
          / (sampleFinishedPinger.PacketsSent : ℚ)
    ∧ 0 ≤ (pingerStatistics sampleFinishedPinger).PacketLoss
    ∧ (pingerStatistics sampleFinishedPinger).PacketLoss ≤ 1
    ∧ (sampleFinishedPinger.PacketsSent = 0 →
        (pingerStatistics sampleFinishedPinger).PacketLoss = 0) :=
  pingerStatistics_loss_bounds sampleFinishedPinger (by decide)

theorem updateSeq_cons (kv : Nat × Pinger) (t : List (Nat × Pinger)) (s : Nat)
    (f : Pinger → Pinger) :
    updateSeq (kv :: t) s f
      = (if kv.1 = s then (kv.1, f kv.2) else kv) :: updateSeq t s f :=
  rfl

theorem lookup_map_value (g : Pinger → Pinger) (m : List (Nat × Pinger)) (s : Nat) :
    List.lookup s (m.map fun kv => (kv.1, g kv.2)) = (List.lookup s m).map g := by
  induction m with
  | nil => rfl
  | cons kv t ih =>
    obtain ⟨k, v⟩ := kv
    by_cases h : s = k
    · have hbeq : (s == k) = true := by simp [h]
      simp [List.lookup_cons, hbeq]
    · have hbeq : (s == k) = false := by simp [h]
      simp [List.lookup_cons, hbeq, ih]

theorem lookup_updateSeq (m : List (Nat × Pinger)) (s s₂ : Nat)
    (f : Pinger → Pinger) :
    List.lookup s₂ (updateSeq m s f)
      = if s₂ = s then (List.lookup s₂ m).map f else List.lookup s₂ m := by
  induction m with
  | nil => simp [updateSeq]
  | cons kv t ih =>
    obtain ⟨k, v⟩ := kv
    rw [updateSeq_cons]
    by_cases hsk : s₂ = k
    · have hbeq : (s₂ == k) = true := by simp [hsk]
      by_cases hks : k = s
      · have hss : s₂ = s := hsk.trans hks
        simp [hks, List.lookup_cons, hbeq, hss]
      · have hss : ¬ s₂ = s := by rw [hsk]; exact hks
        simp [hks, List.lookup_cons, hbeq, hss]
    · have hbeq : (s₂ == k) = false := by simp [hsk]
      by_cases hks : k = s
      · have hss : ¬ s₂ = s := fun h => hsk (h.trans hks.symm)
        have hbeq2 : (s₂ == s) = false := by simp [hss]
        simp [hks, List.lookup_cons, hbeq, hbeq2, hss, ih]
      · simp [hks, List.lookup_cons, hbeq, ih]

theorem processPacket_id (bp : BatchPinger) (parsed : Except String Message)
    (t : TimeNS) : ((processPacket bp parsed t).2).id = bp.id := by
  unfold processPacket
  rcases parsed with e | m
  · rfl
  · obtain ⟨ty, body⟩ := m
    dsimp only
    split
    · rfl
    · cases body with
      | otherBody => rfl
      | echo pktId pktSeq pktData =>
        dsimp only
        split
        · rfl
        · split
          · rfl
          · split
            · rfl
            · rfl

theorem sentAt_processPacket (bp : BatchPinger) (parsed : Except String Message)
    (t : TimeNS) (s : Nat) :
    sentAt ((processPacket bp parsed t).2) s = sentAt bp s := by
  unfold sentAt processPacket
  rcases parsed with e | m
  · rfl
  · obtain ⟨ty, body⟩ := m
    dsimp only
    split
    · rfl
    · cases body with
      | otherBody => rfl
      | echo pktId pktSeq pktData =>
        dsimp only
        split
        · rfl
        · split
          · rfl
          · split
            · dsimp only
              rw [lookup_updateSeq]
              split
              · cases List.lookup s bp.mapSeqPinger <;> rfl
              · rfl
            · rfl

theorem recvAt_processPacket (bp : BatchPinger) (parsed : Except String Message)
    (t : TimeNS) (s : Nat) :
    recvAt ((processPacket bp parsed t).2) s
      = (recvAt bp s).map
          (fun n => n + (if countedFor bp.id s (RunEvent.recv parsed t) then 1 else 0)) := by
  rcases parsed with e | m
  · simp only [processPacket, countedFor, Bool.false_eq_true, if_false]
    cases recvAt bp s <;> simp
  · obtain ⟨ty, body⟩ := m
    cases body with
    | otherBody =>
      by_cases hty : ty ≠ MsgType.echoReply4 ∧ ty ≠ MsgType.echoReply6 <;>
        · simp only [processPacket, countedFor, recvAt, hty, if_true, if_false,
            Bool.false_eq_true]
          simp [hty]
          cases List.lookup s bp.mapSeqPinger <;> simp
    | echo pktId pktSeq pktData =>
      by_cases hty : ty ≠ MsgType.echoReply4 ∧ ty ≠ MsgType.echoReply6
      · have hdec : decide (ty = MsgType.echoReply4 ∨ ty = MsgType.echoReply6) = false := by
          simpa using hty
        simp only [processPacket, countedFor, recvAt, hty, if_true, hdec,
          Bool.false_and, Bool.false_eq_true, if_false]
        simp [hty]
        cases List.lookup s bp.mapSeqPinger <;> simp
      · have hdec : decide (ty = MsgType.echoReply4 ∨ ty = MsgType.echoReply6) = true := by
          rcases not_and_or.mp hty with h | h <;>
            · simp only [ne_eq, not_not] at h
              simp [h]
        by_cases hid : pktId = bp.id
        · by_cases hlen : pktData.length < timeSliceLength + trackerLength
          · have hlendec :
                decide (timeSliceLength + trackerLength ≤ pktData.length) = false := by
              simp only [decide_eq_false_iff_not, not_le]
              exact hlen
            simp only [processPacket, countedFor, recvAt, hty, if_false, hid,
              ne_eq, not_true_eq_false, if_true, hdec, hlendec, hlen,
              Bool.true_and, Bool.and_false, Bool.false_and, Bool.false_eq_true]
            simp [hty, hlen]
            cases List.lookup s bp.mapSeqPinger <;> simp
          · have hlendec :
                decide (timeSliceLength + trackerLength ≤ pktData.length) = true := by
              simp only [decide_eq_true_eq]
              omega
            have hiddec : decide (pktId = bp.id) = true := by simp [hid]
            cases hl : List.lookup pktSeq bp.mapSeqPinger with
            | some p =>
              have hstate :
                  (processPacket bp
                      (Except.ok (Message.mk ty (MsgBody.echo pktId pktSeq pktData))) t).2
                    = { bp with
                          mapSeqPinger := updateSeq bp.mapSeqPinger pktSeq fun q =>
                            { q with
                                PacketsRecv := q.PacketsRecv + 1
                                rtts := q.rtts ++ [t - bytesToTime pktData] } } := by
                simp [processPacket, hty, hid, hlen, hl]
              rw [hstate]
              unfold recvAt
              dsimp only
              rw [lookup_updateSeq]
              by_cases hseq : s = pktSeq
              · have hseqdec : decide (pktSeq = s) = true := by simp [hseq]
                simp only [countedFor, hdec, hiddec, hlendec, hseqdec, if_pos hseq]
                cases List.lookup s bp.mapSeqPinger <;> simp
              · have hseqdec : decide (pktSeq = s) = false := by
                  simp only [decide_eq_false_iff_not]
                  exact fun h => hseq h.symm
                simp only [countedFor, hdec, hiddec, hlendec, hseqdec,
                  if_neg hseq, Bool.and_false, Bool.false_eq_true, if_false]
                cases List.lookup s bp.mapSeqPinger <;> simp
            | none =>
              have hstate :
                  (processPacket bp
                      (Except.ok (Message.mk ty (MsgBody.echo pktId pktSeq pktData))) t).2
                    = bp := by
                simp [processPacket, hty, hid, hlen, hl]
              rw [hstate]
              unfold recvAt
              cases hls : List.lookup s bp.mapSeqPinger with
              | none => simp
              | some q =>
                have hseqdec : decide (pktSeq = s) = false := by
                  simp only [decide_eq_false_iff_not]
                  intro h
                  rw [h, hls] at hl
                  cases hl
                simp only [countedFor, hdec, hiddec, hlendec, hseqdec,
                  Bool.true_and, Bool.and_false, Bool.false_eq_true, if_false]
                simp
        · have hiddec : decide (pktId = bp.id) = false := by simp [hid]
          simp only [processPacket, countedFor, recvAt, hty, if_false, hid, ne_eq,
            not_false_eq_true, if_true, hdec, hiddec, Bool.true_and,
            Bool.false_and, Bool.false_eq_true]
          simp [hty, hid]
          cases List.lookup s bp.mapSeqPinger <;> simp

theorem stepEvent_id (bp : BatchPinger) (e : RunEvent) :
    (stepEvent bp e).id = bp.id := by
  cases e with
  | round => rfl
  | recv parsed t => exact processPacket_id bp parsed t

theorem sentAt_step (bp : BatchPinger) (e : RunEvent) (s : Nat) :
    sentAt (stepEvent bp e) s
      = (sentAt bp s).map (fun n => n + (if isRound e then 1 else 0)) := by
  cases e with
  | round =>
    unfold stepEvent batchSendICMP sentAt isRound
    dsimp only
    rw [lookup_map_value (fun p => { p with PacketsSent := p.PacketsSent + 1 }),
      Option.map_map]
    cases List.lookup s bp.mapSeqPinger <;> rfl
  | recv parsed t =>
    unfold stepEvent isRound
    rw [sentAt_processPacket]
    cases sentAt bp s <;> simp

theorem recvAt_step (bp : BatchPinger) (e : RunEvent) (s : Nat) :
    recvAt (stepEvent bp e) s
      = (recvAt bp s).map (fun n => n + (if countedFor bp.id s e then 1 else 0)) := by
  cases e with
  | round =>
    unfold stepEvent batchSendICMP recvAt countedFor
    dsimp only
    rw [lookup_map_value (fun p => { p with PacketsSent := p.PacketsSent + 1 }),
      Option.map_map]
    cases List.lookup s bp.mapSeqPinger <;> simp
  | recv parsed t => exact recvAt_processPacket bp parsed t s

theorem runTrace_sentAt (es : List RunEvent) : ∀ (bp : BatchPinger) (s : Nat),
    sentAt (runTrace bp es) s
      = (sentAt bp s).map (fun n => n + es.countP isRound) := by
  induction es with
  | nil =>
    intro bp s
    unfold runTrace
    rw [List.foldl_nil]
    cases sentAt bp s <;> simp
  | cons e rest ih =>
    intro bp s
    unfold runTrace at ih ⊢
    rw [List.foldl_cons, ih (stepEvent bp e) s, sentAt_step, Option.map_map]
    cases hl : sentAt bp s with
    | none => rfl
    | some n =>
      simp only [Option.map_some, Function.comp, Option.some.injEq, List.countP_cons]
      cases hr : isRound e <;> (simp [hr]; try omega)

theorem runTrace_recvAt (es : List RunEvent) : ∀ (bp : BatchPinger) (s : Nat),
    recvAt (runTrace bp es) s
      = (recvAt bp s).map (fun n => n + es.countP (countedFor bp.id s)) := by
  induction es with
  | nil =>
    intro bp s
    unfold runTrace
    rw [List.foldl_nil]
    cases recvAt bp s <;> simp
  | cons e rest ih =>
    intro bp s
    unfold runTrace at ih ⊢
    rw [List.foldl_cons, ih (stepEvent bp e) s, stepEvent_id, recvAt_step,
      Option.map_map]
    cases hl : recvAt bp s with
    | none => rfl
    | some n =>
      simp only [Option.map_some, Function.comp, Option.some.injEq, List.countP_cons]
      cases hc : countedFor bp.id s e <;> (simp [hc]; try omega)

/-- The pinger of the sample engine after one send round and one matched
reply. -/
def pingerAfterTwoEvents : Pinger :=
  { addr := "192.0.2.1", id := 7, seqID := 1,
    PacketsSent := 1, PacketsRecv := 1, rtts := [0] }

/-- Claim C6, counterexample: nothing in the code caps `PacketsRecv` by
`PacketsSent` — processing one valid matching reply before any send round
leaves the sample engine's target with `received = 1 > 0 = sent`. -/
theorem received_exceeds_sent_cex :
    ∃ p,
      List.lookup 1
          (runTrace sampleBP [RunEvent.recv (Except.ok matchingReplyMsg) 0]).mapSeqPinger
        = some p
      ∧ ¬ p.PacketsRecv ≤ p.PacketsSent :=
  ⟨{ addr := "192.0.2.1", id := 7, seqID := 1,
     PacketsSent := 0, PacketsRecv := 1, rtts := [0] },
    by decide, by decide⟩

/-- Claim C6, amended: `received ≤ sent` holds for a target at every point of
a run provided the number of valid matching replies processed for its
sequence up to that point does not exceed the number of completed send
rounds; the code itself does not enforce this bound — an unsolicited or
duplicated valid reply increments `received` past `sent`. -/
theorem received_le_sent_of_bounded_matches (bp : BatchPinger)
    (es : List RunEvent) (s : Nat) (p₀ p : Pinger)
    (h₀ : List.lookup s bp.mapSeqPinger = some p₀)
    (hsent : p₀.PacketsSent = 0) (hrecv : p₀.PacketsRecv = 0)
    (hb : es.countP (countedFor bp.id s) ≤ es.countP isRound)
    (hfin : List.lookup s (runTrace bp es).mapSeqPinger = some p) :
    p.PacketsRecv ≤ p.PacketsSent := by
  have h1 := runTrace_sentAt es bp s
  have h2 := runTrace_recvAt es bp s
  unfold sentAt at h1
  unfold recvAt at h2
  rw [h₀, hfin] at h1 h2
  simp only [Option.map_some', Option.some.injEq, hsent, hrecv] at h1 h2
  omega

/-- Claim C6, amended, witness at a concrete input: one send round followed
by one matching reply leaves the sample target with `received = 1 ≤ 1 =
sent`. -/
theorem received_le_sent_of_bounded_matches_witness :
    pingerAfterTwoEvents.PacketsRecv ≤ pingerAfterTwoEvents.PacketsSent :=
  received_le_sent_of_bounded_matches sampleBP
    [RunEvent.round, RunEvent.recv (Except.ok matchingReplyMsg) 0] 1
    (NewPinger "192.0.2.1" 7 1) pingerAfterTwoEvents
    (by decide) rfl rfl (by decide) (by decide)

theorem lookup_replace_self (m : List (String × Statistics)) (k : String)
    (v : Statistics) (h : m.any (fun kv => kv.1 = k) = true) :
    List.lookup k (m.map fun kv => if kv.1 = k then (k, v) else kv) = some v := by
  induction m with
  | nil => cases h
  | cons kv t ih =>
    obtain ⟨a, b⟩ := kv
    by_cases ha : a = k
    · have hbeq : (k == k) = true := by simp
      simp [ha, List.lookup_cons, hbeq]
    · have hbeq : (k == a) = false := by
        simp only [beq_eq_false_iff_ne, ne_eq]
        exact fun hh => ha hh.symm
      have ht : t.any (fun kv => kv.1 = k) = true := by
        simp only [List.any_cons, Bool.or_eq_true] at h
        rcases h with h | h
        · exact absurd (of_decide_eq_true h) ha
        · exact h
      simp [ha, List.lookup_cons, hbeq, ih ht]

theorem lookup_append_single (m : List (String × Statistics)) (k : String)
    (v : Statistics) (h : m.any (fun kv => kv.1 = k) = false) :
    List.lookup k (m ++ [(k, v)]) = some v := by
  induction m with
  | nil =>
    have hbeq : (k == k) = true := by simp
    simp [List.lookup_cons, hbeq]
  | cons kv t ih =>
    obtain ⟨a, b⟩ := kv
    simp only [List.any_cons, Bool.or_eq_false_iff] at h
    have ha : ¬ a = k := by
      intro hh
      rw [hh] at h
      simp at h
    have hbeq : (k == a) = false := by
      simp only [beq_eq_false_iff_ne, ne_eq]
      exact fun hh => ha hh.symm
    simp only [List.cons_append, List.lookup_cons, hbeq]
    exact ih h.2

theorem lookup_mapInsert_self (m : List (String × Statistics)) (k : String)
    (v : Statistics) : List.lookup k (mapInsert m k v) = some v := by
  unfold mapInsert
  by_cases h : m.any (fun kv => kv.1 = k) = true
  · rw [if_pos h]
    exact lookup_replace_self m k v h
  · rw [if_neg h]
    have h2 : m.any (fun kv => kv.1 = k) = false := by
      cases hval : m.any (fun kv => kv.1 = k)
      · rfl
      · exact absurd hval h
    exact lookup_append_single m k v h2

theorem lookup_replace_ne (m : List (String × Statistics)) (k k₂ : String)
    (v : Statistics) (h : ¬ k₂ = k) :
    List.lookup k₂ (m.map fun kv => if kv.1 = k then (k, v) else kv)
      = List.lookup k₂ m := by
  induction m with
  | nil => rfl
  | cons kv t ih =>
    obtain ⟨a, b⟩ := kv
    by_cases ha : a = k
    · have hbeq : (k₂ == k) = false := by simp [h]
      have hbeq2 : (k₂ == a) = false := by simp [ha, h]
      simp [ha, List.lookup_cons, hbeq, hbeq2, ih]
    · by_cases hk2 : k₂ = a
      · have hbeq : (k₂ == a) = true := by simp [hk2]
        simp [ha, List.lookup_cons, hbeq]
      · have hbeq : (k₂ == a) = false := by simp [hk2]
        simp [ha, List.lookup_cons, hbeq, ih]

theorem lookup_append_single_ne (m : List (String × Statistics)) (k k₂ : String)
    (v : Statistics) (h : ¬ k₂ = k) :
    List.lookup k₂ (m ++ [(k, v)]) = List.lookup k₂ m := by
  induction m with
  | nil =>
    have hbeq : (k₂ == k) = false := by simp [h]
    simp [List.lookup_cons, hbeq]
  | cons kv t ih =>
    obtain ⟨a, b⟩ := kv
    by_cases hk2 : k₂ = a
    · have hbeq : (k₂ == a) = true := by simp [hk2]
      simp [List.lookup_cons, hbeq]
    · have hbeq : (k₂ == a) = false := by simp [hk2]
      simp [List.lookup_cons, hbeq, ih]

theorem lookup_mapInsert_ne (m : List (String × Statistics)) (k k₂ : String)
    (v : Statistics) (h : ¬ k₂ = k) :
    List.lookup k₂ (mapInsert m k v) = List.lookup k₂ m := by
  unfold mapInsert
  split
  · exact lookup_replace_ne m k k₂ v h
  · exact lookup_append_single_ne m k k₂ v h

theorem keys_mapInsert (m : List (String × Statistics)) (k : String)
    (v : Statistics) :
    (mapInsert m k v).map Prod.fst
      = if m.any (fun kv => kv.1 = k) then m.map Prod.fst
        else m.map Prod.fst ++ [k] := by
  unfold mapInsert
  split
  · rw [List.map_map]
    apply List.map_congr_left
    intro kv _
    by_cases hk : kv.1 = k
    · simp [hk]
    · simp [hk]
  · simp

theorem mem_keys_any (m : List (String × Statistics)) (k : String) :
    m.any (fun kv => kv.1 = k) = true ↔ k ∈ m.map Prod.fst := by
  simp only [List.any_eq_true, decide_eq_true_eq, List.mem_map]

theorem keys_nodup_mapInsert (m : List (String × Statistics)) (k : String)
    (v : Statistics) (h : (m.map Prod.fst).Nodup) :
    ((mapInsert m k v).map Prod.fst).Nodup := by
  rw [keys_mapInsert]
  split
  · exact h
  · rename_i hany
    have hnot : ¬ k ∈ m.map Prod.fst := by
      rw [← mem_keys_any]
      simp [hany]
    simp [List.nodup_append, h, hnot]

theorem mem_keys_mapInsert (m : List (String × Statistics)) (k z : String)
    (v : Statistics) :
    z ∈ (mapInsert m k v).map Prod.fst ↔ z ∈ m.map Prod.fst ∨ z = k := by
  rw [keys_mapInsert]
  split
  · rename_i hany
    constructor
    · exact Or.inl
    · rintro (hz | hz)
      · exact hz
      · rw [hz, ← mem_keys_any]
        exact hany
  · simp

theorem statsFold_keys_nodup (ps : List (Nat × Pinger)) :
    ∀ (acc : List (String × Statistics)), (acc.map Prod.fst).Nodup →
      ((ps.foldl (fun st kv => mapInsert st kv.2.addr (pingerStatistics kv.2)) acc).map
          Prod.fst).Nodup := by
  induction ps with
  | nil => intro acc h; exact h
  | cons kv rest ih =>
    intro acc h
    rw [List.foldl_cons]
    exact ih _ (keys_nodup_mapInsert acc kv.2.addr (pingerStatistics kv.2) h)

theorem statsFold_mem_keys (ps : List (Nat × Pinger)) :
    ∀ (acc : List (String × Statistics)) (z : String),
      z ∈ (ps.foldl (fun st kv => mapInsert st kv.2.addr (pingerStatistics kv.2)) acc).map
            Prod.fst
        ↔ z ∈ acc.map Prod.fst ∨ z ∈ ps.map (fun kv => kv.2.addr) := by
  induction ps with
  | nil => intro acc z; simp
  | cons kv rest ih =>
    intro acc z
    rw [List.foldl_cons, ih]
    rw [mem_keys_mapInsert]
    simp only [List.map_cons, List.mem_cons]
    tauto

theorem statsFold_lookup (ps : List (Nat × Pinger)) :
    ∀ (acc : List (String × Statistics)) (k : String),
      List.lookup k
          (ps.foldl (fun st kv => mapInsert st kv.2.addr (pingerStatistics kv.2)) acc)
        = (match (ps.map Prod.snd).reverse.find? (fun q => q.addr == k) with
            | some q => some (pingerStatistics q)
            | none => List.lookup k acc) := by
  induction ps with
  | nil => intro acc k; rfl
  | cons kv rest ih =>
    intro acc k
    rw [List.foldl_cons, ih]
    simp only [List.map_cons, List.reverse_cons, List.find?_append]
    cases hf : (rest.map Prod.snd).reverse.find? (fun q => q.addr == k) with
    | some q => simp [Option.or]
    | none =>
      simp only [Option.none_or]
      by_cases haddr : kv.2.addr = k
      · have hbeq : (kv.2.addr == k) = true := by simp [haddr]
        simp only [List.find?_cons, hbeq]
        rw [← haddr]
        exact lookup_mapInsert_self acc kv.2.addr (pingerStatistics kv.2)
      · have hbeq : (kv.2.addr == k) = false := by simp [haddr]
        simp only [List.find?_cons, hbeq, List.find?_nil]
        exact lookup_mapInsert_ne acc kv.2.addr k (pingerStatistics kv.2)
          (fun hh => haddr hh.symm)

theorem dedup_length_lt_of_not_nodup (l : List String) (h : ¬ l.Nodup) :
    l.dedup.length < l.length := by
  have hs := List.dedup_sublist l
  rcases Nat.lt_or_ge l.dedup.length l.length with hlt | hge
  · exact hlt
  · exfalso
    have heq : l.dedup.length = l.length := Nat.le_antisymm hs.length_le hge
    have : l.dedup = l := hs.eq_of_length heq
    exact h (this ▸ List.nodup_dedup l)

/-- Claim C10: `Statistics()` keys its result by the address string, so its
key list is duplicate-free, the entry for an address is the statistics of
the target written last in iteration order (the last matching pinger in the
map), and when two targets share an address the result has strictly fewer
entries than there are targets. -/
theorem statisticsMap_last_write_wins (bp : BatchPinger)
    (hdup : ¬ (bp.mapSeqPinger.map (fun kv => kv.2.addr)).Nodup) :
    ((statisticsMap bp).map Prod.fst).Nodup
    ∧ (∀ k, List.lookup k (statisticsMap bp)
        = ((bp.mapSeqPinger.map Prod.snd).reverse.find?
              (fun q => q.addr == k)).map pingerStatistics)
    ∧ (statisticsMap bp).length < bp.mapSeqPinger.length := by
  refine ⟨?_, ?_, ?_⟩
  · exact statsFold_keys_nodup bp.mapSeqPinger [] (by simp)
  · intro k
    unfold statisticsMap
    rw [statsFold_lookup]
    cases hf : (bp.mapSeqPinger.map Prod.snd).reverse.find? (fun q => q.addr == k) <;>
      simp
  · have hnodup : ((statisticsMap bp).map Prod.fst).Nodup :=
      statsFold_keys_nodup bp.mapSeqPinger [] (by simp)
    have hmem : ∀ z, z ∈ (statisticsMap bp).map Prod.fst
        ↔ z ∈ bp.mapSeqPinger.map (fun kv => kv.2.addr) := by
      intro z
      unfold statisticsMap
      rw [statsFold_mem_keys]
      simp
    have hsetEq : ((statisticsMap bp).map Prod.fst).toFinset
        = (bp.mapSeqPinger.map (fun kv => kv.2.addr)).toFinset := by
      apply Finset.ext
      intro z
      rw [List.mem_toFinset, List.mem_toFinset]
      exact hmem z
    have h1 : ((statisticsMap bp).map Prod.fst).toFinset.card
        = ((statisticsMap bp).map Prod.fst).length :=
      List.toFinset_card_of_nodup hnodup
    have h2 : ((bp.mapSeqPinger.map (fun kv => kv.2.addr)).toFinset).card
        = (bp.mapSeqPinger.map (fun kv => kv.2.addr)).dedup.length :=
      List.card_toFinset _
    have h3 : (bp.mapSeqPinger.map (fun kv => kv.2.addr)).dedup.length
        < (bp.mapSeqPinger.map (fun kv => kv.2.addr)).length :=
      dedup_length_lt_of_not_nodup _ hdup
    have h4 : ((statisticsMap bp).map Prod.fst).length = (statisticsMap bp).length :=
      List.length_map _ _
    have h5 : (bp.mapSeqPinger.map (fun kv => kv.2.addr)).length
        = bp.mapSeqPinger.length :=
      List.length_map _ _
    rw [hsetEq] at h1
    omega

/-- Claim C10, witness at a concrete input: the sample engine with two
targets sharing one address yields one duplicate-free key, the last
duplicate's statistics under that key, and fewer entries than targets. -/
theorem statisticsMap_last_write_wins_witness :
    ((statisticsMap sampleDupBP).map Prod.fst).Nodup
    ∧ List.lookup "192.0.2.9" (statisticsMap sampleDupBP)
        = ((sampleDupBP.mapSeqPinger.map Prod.snd).reverse.find?
              (fun q => q.addr == "192.0.2.9")).map pingerStatistics
    ∧ (statisticsMap sampleDupBP).length < sampleDupBP.mapSeqPinger.length :=
  ⟨(statisticsMap_last_write_wins sampleDupBP (by decide)).1,
    (statisticsMap_last_write_wins sampleDupBP (by decide)).2.1 "192.0.2.9",
    (statisticsMap_last_write_wins sampleDupBP (by decide)).2.2⟩

end BatchPing
